import Mathlib

set_option maxHeartbeats 1000000
set_option maxRecDepth 4000

/-!
Shallow embedding of the react-guided-tour core:
`src/core/TourEngine.ts`, `src/core/TourStorage.ts`, `src/core/TourActions.ts`
and `src/utils/positioning.ts`.

Modelling conventions:
* JS numbers that hold step indices are modelled as `Int` (the engine can be
  called with negative indices); pixel coordinates in the positioning code are
  modelled as `ℚ` (they involve division by 2).
* `localStorage` is modelled as a total map `String → Option PersistedState`;
  JSON (de)serialization is identity on that structure.
* Asynchronous hooks (`beforeStep`/`afterStep`/`onStepChange`/`onSkip`/
  `onComplete`) and the `waitForElement` DOM wait are invoked inside
  `try { ... } catch { console.warn(...) }` blocks in the source: their failures
  are swallowed and they never touch engine state, so they have no observable
  effect on the embedded state or event trace and are not represented.
* `new Date().toISOString()` is modelled as a fixed placeholder string; no
  verified property depends on clock values.
* Each `setState` call in the source emits a `state-change` event; the
  embedding records it as `TourEvent.stateChange` in the event trace.
* A rejected promise (a `throw` that escapes the method) is modelled by the
  `thrown` field of `OpResult` carrying the error message.
-/

/-- A tour step, restricted to the fields the engine's control flow reads.
`target`/`waitForElement` are carried for fidelity; per the conventions above
the element wait never influences engine state. -/
structure TourStep where
  id : String
  target : Option String := none
  waitForElement : Bool := false
deriving DecidableEq

/-- The `storage` block of a `TourConfig` (`{ key?, remember? }`). -/
structure StorageConfig where
  key : Option String := none
  remember : Bool := false
deriving DecidableEq

/-- `TourConfig`, restricted to the fields the engine's control flow reads. -/
structure TourConfig where
  id : String
  steps : List TourStep
  storage : Option StorageConfig := none
deriving DecidableEq

/-- JS truthiness of `this.config.storage?.remember`. -/
def TourConfig.remember (cfg : TourConfig) : Bool :=
  match cfg.storage with
  | some s => s.remember
  | none => false

/-- `config.storage?.key || tour-<id>` from the `TourEngine` constructor
(an empty-string key is falsy in JS and falls back to the default). -/
def TourConfig.storageKey (cfg : TourConfig) : String :=
  match cfg.storage.bind (fun s => s.key) with
  | some k => if k = "" then "tour-" ++ cfg.id else k
  | none => "tour-" ++ cfg.id

/-- `TourState` from `src/types`, as managed by `TourEngine`. -/
structure TourState where
  isRunning : Bool
  currentStepIndex : Int
  currentStep : Option TourStep
  totalSteps : Nat
  isLoading : Bool
  error : Option String
  completedSteps : List String
  skippedSteps : List String
  isCompleted : Bool
  isSkipped : Bool
  completedAt : Option String
  skippedAt : Option String
deriving DecidableEq

/-- The JSON object `TourStorage` keeps under its key: a `Partial<TourState>`
(each field may be absent). -/
structure PersistedState where
  currentStepIndex : Option Int := none
  completedSteps : Option (List String) := none
  skippedSteps : Option (List String) := none
  isCompleted : Option Bool := none
  isSkipped : Option Bool := none
  completedAt : Option String := none
  skippedAt : Option String := none
deriving DecidableEq

/-- `localStorage`, restricted to tour snapshots: a total map from keys to
optional stored values. -/
abbrev LocalStorage := String → Option PersistedState

/-- The named events `TourEngine.emit` can produce, with the payload parts the
spec's claims mention. -/
inductive TourEvent where
  | stateChange
  | tourStart (tourId : String)
  | stepChange (stepId : String) (index : Int)
  | tourComplete (tourId : String)
  | tourSkip (tourId : String) (stepIndex : Int)
  | errorEvent (message : String)
deriving DecidableEq

namespace TourStorage

/-- `TourStorage.getState`: read and parse the value under `key`. -/
def getState (store : LocalStorage) (key : String) : Option PersistedState :=
  store key

/-- `TourStorage.saveState`: writes an object with the current index and the
step-id lists, and with `isCompleted: false, isSkipped: false` literally
(note: the written object has no `completedAt`/`skippedAt` fields). -/
def saveState (store : LocalStorage) (key : String) (state : TourState) : LocalStorage :=
  fun k =>
    if k = key then
      some { currentStepIndex := some state.currentStepIndex
             completedSteps := some state.completedSteps
             skippedSteps := some state.skippedSteps
             isCompleted := some false
             isSkipped := some false }
    else store k

/-- `TourStorage.clearState`: `localStorage.removeItem(key)`. -/
def clearState (store : LocalStorage) (key : String) : LocalStorage :=
  fun k => if k = key then none else store k

/-- `TourStorage.saveCompletion`: read-modify-write merging
`isCompleted: true` and a timestamp into the existing snapshot (`getState() || x7b x7d`). -/
def saveCompletion (store : LocalStorage) (key : String) (now : String) : LocalStorage :=
  let existing := (getState store key).getD {}
  fun k =>
    if k = key then some { existing with isCompleted := some true, completedAt := some now }
    else store k

/-- `TourStorage.saveSkip`: read-modify-write merging `isSkipped: true`
and a timestamp into the existing snapshot. -/
def saveSkip (store : LocalStorage) (key : String) (now : String) : LocalStorage :=
  let existing := (getState store key).getD {}
  fun k =>
    if k = key then some { existing with isSkipped := some true, skippedAt := some now }
    else store k

/-- `TourStorage.isCompleted`: `saved?.isCompleted === true`. -/
def isCompleted (store : LocalStorage) (key : String) : Bool :=
  ((getState store key).bind (fun s => s.isCompleted)).getD false

/-- `TourStorage.isSkipped`: `saved?.isSkipped === true`. -/
def isSkipped (store : LocalStorage) (key : String) : Bool :=
  ((getState store key).bind (fun s => s.isSkipped)).getD false

end TourStorage

/-- A `TourEngine` instance: its (read-only) config, mutable state and the
browser storage it talks to. -/
structure Engine where
  cfg : TourConfig
  state : TourState
  store : LocalStorage

/-- Result of one public engine operation: the engine afterwards, the events it
emitted (in order), and the error message if the returned promise rejected. -/
structure OpResult where
  engine : Engine
  events : List TourEvent
  thrown : Option String

namespace TourEngine

/-- Placeholder for `new Date().toISOString()`; no claim depends on clock
values. -/
def nowIso : String := "1970-01-01T00:00:00.000Z"

/-- `TourEngine.initializeState`: seeds the state from the persisted snapshot
when `storage?.remember` is set. `savedState?.field || default` coincides with
`Option.getD` here: for `currentStepIndex` the JS `|| 0` maps falsy `0` to `0`
itself, and arrays/booleans are defaulted only when absent. -/
def initializeState (cfg : TourConfig) (store : LocalStorage) : TourState :=
  let savedState := if cfg.remember then TourStorage.getState store cfg.storageKey else none
  { isRunning := false
    currentStepIndex := (savedState.bind (fun s => s.currentStepIndex)).getD 0
    currentStep := none
    totalSteps := cfg.steps.length
    isLoading := false
    error := none
    completedSteps := (savedState.bind (fun s => s.completedSteps)).getD []
    skippedSteps := (savedState.bind (fun s => s.skippedSteps)).getD []
    isCompleted := (savedState.bind (fun s => s.isCompleted)).getD false
    isSkipped := (savedState.bind (fun s => s.isSkipped)).getD false
    completedAt := savedState.bind (fun s => s.completedAt)
    skippedAt := savedState.bind (fun s => s.skippedAt) }

/-- The `TourEngine` constructor. -/
def mkEngine (cfg : TourConfig) (store : LocalStorage) : Engine :=
  { cfg := cfg, state := initializeState cfg store, store := store }

/-- `TourEngine.handleError`: records the message, resets `isLoading` and emits
an `error` event (via one `setState`, hence one `state-change` first). -/
def handleError (s : TourState) (msg : String) : TourState × List TourEvent :=
  ({ s with error := some msg, isLoading := false },
   [TourEvent.stateChange, TourEvent.errorEvent msg])

/-- The message of the out-of-range rejection in `goToStep`. -/
def invalidIndexMsg (index : Int) (total : Nat) : String :=
  "Invalid step index: " ++ toString index ++ ". Must be between 0 and " ++
    toString ((total : Int) - 1)

/-- `TourEngine.goToStep`. The out-of-range throw happens before the `try`
block, so it leaves state, storage and listeners untouched. Inside the `try`:
`setState(isLoading:true)`; `steps[index]` (an out-of-range read would yield
`undefined` and the subsequent property access would raise a TypeError caught
by the `catch` — unreachable while `totalSteps = steps.length`); the
`beforeStep` hook and the element wait (failures swallowed); the state update;
best-effort persistence; the `step-change` emission; the swallowed
`onStepChange` callback. -/
def goToStep (e : Engine) (index : Int) : OpResult :=
  if index < 0 ∨ (e.state.totalSteps : Int) ≤ index then
    { engine := e, events := [], thrown := some (invalidIndexMsg index e.state.totalSteps) }
  else
    let s1 := { e.state with isLoading := true }
    match e.cfg.steps[index.toNat]? with
    | none =>
        let msg := "TypeError: step is undefined"
        let s2 := { s1 with isLoading := false }
        let p := handleError s2 msg
        { engine := { e with state := p.1 }
          events := TourEvent.stateChange :: TourEvent.stateChange :: p.2
          thrown := some msg }
    | some step =>
        let s2 := { s1 with currentStepIndex := index, currentStep := some step,
                            isLoading := false }
        let store' := if e.cfg.remember then TourStorage.saveState e.store e.cfg.storageKey s2
                      else e.store
        { engine := { e with state := s2, store := store' }
          events := [TourEvent.stateChange, TourEvent.stateChange,
                     TourEvent.stepChange step.id index]
          thrown := none }

/-- `TourEngine.start`: sets `isRunning`/`isLoading`, clears `error`, emits
`tour-start`, then delegates to `goToStep(currentStepIndex)`. Its `catch`
runs `handleError`, resets the flags and rethrows. -/
def start (e : Engine) : OpResult :=
  let s1 := { e.state with isRunning := true, isLoading := true, error := none }
  let preEvents := [TourEvent.stateChange, TourEvent.tourStart e.cfg.id]
  let r := goToStep { e with state := s1 } s1.currentStepIndex
  match r.thrown with
  | none => { engine := r.engine, events := preEvents ++ r.events, thrown := none }
  | some msg =>
      let p := handleError r.engine.state msg
      let s3 := { p.1 with isRunning := false, isLoading := false }
      { engine := { r.engine with state := s3 }
        events := preEvents ++ r.events ++ p.2 ++ [TourEvent.stateChange]
        thrown := some msg }

/-- `TourEngine.markStepCompleted` (idempotent append). -/
def markStepCompleted (s : TourState) (stepId : String) : TourState × List TourEvent :=
  if s.completedSteps.contains stepId then (s, [])
  else ({ s with completedSteps := s.completedSteps ++ [stepId] }, [TourEvent.stateChange])

/-- `TourEngine.markStepSkipped` (idempotent append). -/
def markStepSkipped (s : TourState) (stepId : String) : TourState × List TourEvent :=
  if s.skippedSteps.contains stepId then (s, [])
  else ({ s with skippedSteps := s.skippedSteps ++ [stepId] }, [TourEvent.stateChange])

/-- `TourEngine.complete`: no `isRunning` guard; sets the terminal flag, emits
`tour-complete`, persists a completion snapshot when remembering. Its `catch`
does not rethrow, so `complete` never rejects. -/
def complete (e : Engine) : OpResult :=
  let s1 := { e.state with isRunning := false, isCompleted := true }
  let store' := if e.cfg.remember then TourStorage.saveCompletion e.store e.cfg.storageKey nowIso
                else e.store
  { engine := { e with state := s1, store := store' }
    events := [TourEvent.stateChange, TourEvent.tourComplete e.cfg.id]
    thrown := none }

/-- `TourEngine.next`: no-op when not running; rejects when there is no current
step; otherwise (swallowed `afterStep`), marks the step completed, and either
delegates to `complete` at the last index or to `goToStep(index+1)`. Its
`catch` runs `handleError` and rethrows. -/
def next (e : Engine) : OpResult :=
  if e.state.isRunning = false then { engine := e, events := [], thrown := none }
  else
    match e.state.currentStep with
    | none =>
        let msg := "No current step available for next operation"
        let p := handleError e.state msg
        { engine := { e with state := p.1 }, events := p.2, thrown := some msg }
    | some step =>
        let m := markStepCompleted e.state step.id
        if (m.1.totalSteps : Int) - 1 ≤ m.1.currentStepIndex then
          let r := complete { e with state := m.1 }
          { engine := r.engine, events := m.2 ++ r.events, thrown := r.thrown }
        else
          let r := goToStep { e with state := m.1 } (m.1.currentStepIndex + 1)
          match r.thrown with
          | none => { engine := r.engine, events := m.2 ++ r.events, thrown := none }
          | some msg =>
              let p := handleError r.engine.state msg
              { engine := { r.engine with state := p.1 }
                events := m.2 ++ r.events ++ p.2
                thrown := some msg }

/-- `TourEngine.previous`: no-op when not running or at index 0; otherwise
`goToStep(index-1)`; its `catch` runs `handleError` and does NOT rethrow. -/
def previous (e : Engine) : OpResult :=
  if e.state.isRunning = false ∨ e.state.currentStepIndex ≤ 0 then
    { engine := e, events := [], thrown := none }
  else
    let r := goToStep e (e.state.currentStepIndex - 1)
    match r.thrown with
    | none => { engine := r.engine, events := r.events, thrown := none }
    | some msg =>
        let p := handleError r.engine.state msg
        { engine := { r.engine with state := p.1 }, events := r.events ++ p.2, thrown := none }

/-- `TourEngine.stop`: clears `isRunning` and `currentStep`, nothing else. -/
def stop (e : Engine) : OpResult :=
  { engine := { e with state := { e.state with isRunning := false, currentStep := none } }
    events := [TourEvent.stateChange]
    thrown := none }

/-- `TourEngine.skip`: no-op when not running; marks the current step skipped,
sets `isSkipped`, emits `tour-skip` (with the current index), persists a skip
snapshot when remembering, then runs `stop()`. Its `catch` does not rethrow. -/
def skip (e : Engine) : OpResult :=
  if e.state.isRunning = false then { engine := e, events := [], thrown := none }
  else
    let m :=
      match e.state.currentStep with
      | some step => markStepSkipped e.state step.id
      | none => (e.state, [])
    let s2 := { m.1 with isSkipped := true }
    let store' := if e.cfg.remember then TourStorage.saveSkip e.store e.cfg.storageKey nowIso
                  else e.store
    let s3 := { s2 with isRunning := false, currentStep := none }
    { engine := { e with state := s3, store := store' }
      events := m.2 ++ [TourEvent.stateChange, TourEvent.tourSkip e.cfg.id s2.currentStepIndex,
                        TourEvent.stateChange]
      thrown := none }

/-- `TourEngine.shouldShowTour`. -/
def shouldShowTour (e : Engine) : Bool :=
  if e.cfg.remember = false then true
  else !(TourStorage.isCompleted e.store e.cfg.storageKey) &&
       !(TourStorage.isSkipped e.store e.cfg.storageKey)

/-- `TourEngine.resetTourState`: clears the snapshot when remembering, then
reassigns `this.state = this.initializeState()` directly (no `setState`, hence
no `state-change` event). -/
def resetTourState (e : Engine) : OpResult :=
  let store' := if e.cfg.remember then TourStorage.clearState e.store e.cfg.storageKey
                else e.store
  { engine := { e with state := initializeState e.cfg store', store := store' }
    events := []
    thrown := none }

/-- The public mutating operations of the engine. -/
inductive Op where
  | start
  | next
  | previous
  | goTo (index : Int)
  | skip
  | complete
  | stop
  | reset
deriving DecidableEq

/-- Dispatch one public operation. -/
def applyOp (e : Engine) : Op → OpResult
  | Op.start => start e
  | Op.next => next e
  | Op.previous => previous e
  | Op.goTo i => goToStep e i
  | Op.skip => skip e
  | Op.complete => complete e
  | Op.stop => stop e
  | Op.reset => resetTourState e

/-- Run a sequence of public operations, keeping the final engine. -/
def runOps (e : Engine) : List Op → Engine
  | [] => e
  | op :: ops => runOps (applyOp e op).engine ops

/-- Run a sequence of public operations, collecting all emitted events. -/
def runTrace (e : Engine) : List Op → Engine × List TourEvent
  | [] => (e, [])
  | op :: ops =>
      let r := applyOp e op
      let p := runTrace r.engine ops
      (p.1, r.events ++ p.2)

end TourEngine

/-- Indices carried by the `step-change` events of a trace. -/
def stepChangeIndices (evs : List TourEvent) : List Int :=
  evs.filterMap (fun ev =>
    match ev with
    | TourEvent.stepChange _ i => some i
    | _ => none)

/-- Whether an event is the generic `state-change` emission. -/
def isStateChange : TourEvent → Bool
  | TourEvent.stateChange => true
  | _ => false

/-- A trace with the `state-change` emissions dropped (the named events). -/
def namedEvents (evs : List TourEvent) : List TourEvent :=
  evs.filter (fun ev => !(isStateChange ev))

/-! ### `src/core/TourActions.ts` — action dispatch over pluggable integrations -/

/-- `TourAction`, restricted to the fields the dispatcher's control flow reads
(`value`, being handler-specific payload, is not inspected by `execute`). -/
structure TourAction where
  type : String
  target : Option String := none
  hasHandler : Bool := false
  delay : Int := 0
deriving DecidableEq

/-- An `Integration` capability object. `canHandle` is the source predicate;
`execFails` models whether `execute(action, element?)` returns a rejected
promise for the given action (the observable the dispatcher branches on). -/
structure Integration where
  name : String
  canHandle : TourAction → Bool
  execFails : TourAction → Bool

/-- Observable handler invocations of a single `TourActions.execute` call. The
internals of the built-in default handler (scroll, synthetic click, URL
update) are outside the engine state and are summarized by which handler ran. -/
inductive ExecStep where
  | integrationRun (name : String)
  | defaultRun (actionType : String)
deriving DecidableEq

namespace TourActions

/-- The registry is a JS `Map`, which iterates in insertion order; modelled as
a list. `Map.set` with an existing name replaces the value in place. -/
def registerIntegration (regs : List Integration) (i : Integration) : List Integration :=
  if regs.any (fun j => j.name = i.name) then
    regs.map (fun j => if j.name = i.name then i else j)
  else regs ++ [i]

/-- `Map.delete` by name. -/
def unregisterIntegration (regs : List Integration) (name : String) : List Integration :=
  regs.filter (fun j => j.name ≠ name)

/-- `TourActions.findIntegration`: the `for ... of map.values()` loop returning
the first integration whose `canHandle(action)` is true. -/
def findIntegration (regs : List Integration) (action : TourAction) : Option Integration :=
  match regs with
  | [] => none
  | i :: rest => if i.canHandle action then some i else findIntegration rest action

/-- `TourActions.execute`: no claiming integration → default handler directly;
otherwise the integration's `execute`, and on its rejection the error is
caught (logged) and the default handler for the action's type runs. -/
def execute (regs : List Integration) (action : TourAction) : List ExecStep :=
  match findIntegration regs action with
  | none => [ExecStep.defaultRun action.type]
  | some i =>
      if i.execFails action then
        [ExecStep.integrationRun i.name, ExecStep.defaultRun action.type]
      else [ExecStep.integrationRun i.name]

end TourActions

/-! ### `src/utils/positioning.ts` — popover placement -/

/-- The placement enum of `calculatePopoverPosition`. -/
inductive Placement where
  | top
  | bottom
  | left
  | right
  | center
deriving DecidableEq

/-- `ElementPosition` (document-absolute target rectangle). -/
structure ElementPosition where
  top : ℚ
  left : ℚ
  width : ℚ
  height : ℚ
  right : ℚ
  bottom : ℚ
deriving DecidableEq

/-- The popover's `getBoundingClientRect()` size. -/
structure Size where
  width : ℚ
  height : ℚ
deriving DecidableEq

/-- The viewport object built inside `calculatePopoverPosition`. -/
structure Viewport where
  width : ℚ
  height : ℚ
  scrollTop : ℚ
  scrollLeft : ℚ
deriving DecidableEq

/-- A computed popover position. -/
structure PopoverPosition where
  top : ℚ
  left : ℚ
  placement : Placement
deriving DecidableEq

/-- `const spacing = 12`. -/
def spacing : ℚ := 12

/-- `const margin = 16` in `isPositionInViewport`. -/
def viewportMargin : ℚ := 16

/-- The `positions` record literal of `calculatePopoverPosition`. -/
def positionsFor (targetPos : ElementPosition) (popoverRect : Size) (viewport : Viewport) :
    Placement → PopoverPosition
  | Placement.top =>
      { top := targetPos.top - popoverRect.height - spacing
        left := targetPos.left + (targetPos.width - popoverRect.width) / 2
        placement := Placement.top }
  | Placement.bottom =>
      { top := targetPos.bottom + spacing
        left := targetPos.left + (targetPos.width - popoverRect.width) / 2
        placement := Placement.bottom }
  | Placement.left =>
      { top := targetPos.top + (targetPos.height - popoverRect.height) / 2
        left := targetPos.left - popoverRect.width - spacing
        placement := Placement.left }
  | Placement.right =>
      { top := targetPos.top + (targetPos.height - popoverRect.height) / 2
        left := targetPos.right + spacing
        placement := Placement.right }
  | Placement.center =>
      { top := viewport.scrollTop + (viewport.height - popoverRect.height) / 2
        left := viewport.scrollLeft + (viewport.width - popoverRect.width) / 2
        placement := Placement.center }

/-- `isPositionInViewport`: the candidate must fit within the viewport minus a
16px margin on all sides, in document-absolute coordinates. -/
def isPositionInViewport (position : PopoverPosition) (popoverRect : Size)
    (viewport : Viewport) : Bool :=
  decide (viewport.scrollLeft + viewportMargin ≤ position.left) &&
  decide (position.left + popoverRect.width ≤ viewport.scrollLeft + viewport.width - viewportMargin) &&
  decide (viewport.scrollTop + viewportMargin ≤ position.top) &&
  decide (position.top + popoverRect.height ≤ viewport.scrollTop + viewport.height - viewportMargin)

/-- The `fallbackOrder` array literal. -/
def fallbackOrder : List Placement :=
  [Placement.bottom, Placement.top, Placement.right, Placement.left, Placement.center]

/-- `calculatePopoverPosition`: preferred placement first; then the fallback
loop (`continue` on the preferred entry, return the first fitting candidate);
finally `positions.center` unconditionally. -/
def calculatePopoverPosition (targetPos : ElementPosition) (popoverRect : Size)
    (preferredPlacement : Placement) (viewport : Viewport) : PopoverPosition :=
  let positions := positionsFor targetPos popoverRect viewport
  if isPositionInViewport (positions preferredPlacement) popoverRect viewport then
    positions preferredPlacement
  else
    match (fallbackOrder.filter (fun pl => decide (pl ≠ preferredPlacement))).find?
        (fun pl => isPositionInViewport (positions pl) popoverRect viewport) with
    | some pl => positions pl
    | none => positions Placement.center

/-- Modelled from the spec wording of the position-calculation contract
(claim-side reference): return the preferred placement's candidate if it fits;
otherwise the first fitting candidate in the fixed order bottom, top, right,
left, center; otherwise the center candidate. -/
def specPopoverPosition (targetPos : ElementPosition) (popoverRect : Size)
    (preferredPlacement : Placement) (viewport : Viewport) : PopoverPosition :=
  let positions := positionsFor targetPos popoverRect viewport
  if isPositionInViewport (positions preferredPlacement) popoverRect viewport then
    positions preferredPlacement
  else
    match fallbackOrder.find?
        (fun pl => isPositionInViewport (positions pl) popoverRect viewport) with
    | some pl => positions pl
    | none => positions Placement.center

/-- Modelled from the spec wording of claim C9: the persisted snapshot shows
`isCompleted = true`. -/
def snapshotShowsCompleted (snap : Option PersistedState) : Prop :=
  ∃ s, snap = some s ∧ s.isCompleted = some true

/-- Modelled from the spec wording of claim C9: the persisted snapshot shows
`isSkipped = true`. -/
def snapshotShowsSkipped (snap : Option PersistedState) : Prop :=
  ∃ s, snap = some s ∧ s.isSkipped = some true

/-! ### Concrete instances used to evaluate the definitions -/

/-- The empty `localStorage`. -/
def emptyStore : LocalStorage := fun _ => none

/-- A 1-step tour without persistence. -/
def wCfg1 : TourConfig := { id := "t1", steps := [{ id := "s0" }] }

/-- A 3-step tour without persistence (the Scenario A tour: no target
elements). -/
def wCfg3 : TourConfig := { id := "tour", steps := [{ id := "s0" }, { id := "s1" }, { id := "s2" }] }

/-- A 3-step tour remembering progress under key `"k"`. -/
def wCfgR : TourConfig :=
  { id := "r", steps := [{ id := "a" }, { id := "b" }, { id := "c" }],
    storage := some { key := some "k", remember := true } }

/-- A 6-step tour remembering progress under key `"shared"`. -/
def wCfg6 : TourConfig :=
  { id := "big",
    steps := [{ id := "a" }, { id := "b" }, { id := "c" }, { id := "d" }, { id := "e" },
              { id := "f" }],
    storage := some { key := some "shared", remember := true } }

/-- A 1-step tour remembering progress under the same key `"shared"`. -/
def wCfg1R : TourConfig :=
  { id := "small", steps := [{ id := "only" }],
    storage := some { key := some "shared", remember := true } }

/-- An integration that never claims an action. -/
def wIntegrationA : Integration :=
  { name := "A", canHandle := fun _ => false, execFails := fun _ => false }

/-- An integration claiming `custom-foo` actions, whose execute rejects. -/
def wIntegrationB : Integration :=
  { name := "B", canHandle := fun a => a.type = "custom-foo", execFails := fun _ => true }

/-- A `custom-foo` action. -/
def wAction : TourAction := { type := "custom-foo" }

/-- The index invariant of claim C2, together with the configuration
agreement that makes it inductive. -/
def IndexInvariant (e : Engine) : Prop :=
  0 ≤ e.state.currentStepIndex ∧
  e.state.currentStepIndex < (e.state.totalSteps : Int) ∧
  e.state.totalSteps = e.cfg.steps.length ∧
  1 ≤ e.cfg.steps.length

/-! ## Characterization lemmas for the engine operations -/

/-- An out-of-range `goToStep` throws before the `try` block: nothing at all
changes. -/
lemma goToStep_out_of_range_eq (e : Engine) (i : Int)
    (h : i < 0 ∨ (e.state.totalSteps : Int) ≤ i) :
    TourEngine.goToStep e i =
      { engine := e, events := [],
        thrown := some (TourEngine.invalidIndexMsg i e.state.totalSteps) } := by
  unfold TourEngine.goToStep
  rw [if_pos h]

/-- A valid `goToStep` (in an engine whose `totalSteps` agrees with the config)
succeeds and is fully described by this equation. -/
lemma goToStep_valid_eq (e : Engine) (i : Int)
    (h0 : 0 ≤ i) (h1 : i < (e.state.totalSteps : Int))
    (hlen : e.state.totalSteps = e.cfg.steps.length) :
    ∃ step, e.cfg.steps[i.toNat]? = some step ∧
      TourEngine.goToStep e i =
        { engine :=
            { e with
              state := { e.state with currentStepIndex := i, currentStep := some step,
                                      isLoading := false }
              store :=
                if e.cfg.remember then
                  TourStorage.saveState e.store e.cfg.storageKey
                    { e.state with currentStepIndex := i, currentStep := some step,
                                   isLoading := false }
                else e.store }
          events := [TourEvent.stateChange, TourEvent.stateChange,
                     TourEvent.stepChange step.id i]
          thrown := none } := by
  have htn : i.toNat < e.cfg.steps.length := by omega
  obtain ⟨step, hstep⟩ : ∃ s, e.cfg.steps[i.toNat]? = some s :=
    ⟨e.cfg.steps[i.toNat], List.getElem?_eq_getElem htn⟩
  refine ⟨step, hstep, ?_⟩
  unfold TourEngine.goToStep
  rw [if_neg (by omega)]
  simp only [hstep]

/-- `goToStep` never changes the config, the step count, the running flag or
the terminal markers. -/
lemma goToStep_frame (e : Engine) (i : Int) :
    (TourEngine.goToStep e i).engine.cfg = e.cfg ∧
    (TourEngine.goToStep e i).engine.state.totalSteps = e.state.totalSteps ∧
    (TourEngine.goToStep e i).engine.state.isRunning = e.state.isRunning ∧
    (TourEngine.goToStep e i).engine.state.isCompleted = e.state.isCompleted ∧
    (TourEngine.goToStep e i).engine.state.isSkipped = e.state.isSkipped := by
  unfold TourEngine.goToStep
  split
  · exact ⟨rfl, rfl, rfl, rfl, rfl⟩
  · split <;> exact ⟨rfl, rfl, rfl, rfl, rfl⟩

/-- `goToStep` either leaves the index unchanged or sets it to the requested
in-range index. -/
lemma goToStep_idx (e : Engine) (i : Int) :
    (TourEngine.goToStep e i).engine.state.currentStepIndex = e.state.currentStepIndex ∨
    (0 ≤ i ∧ i < (e.state.totalSteps : Int) ∧
     (TourEngine.goToStep e i).engine.state.currentStepIndex = i) := by
  unfold TourEngine.goToStep
  split
  · left; rfl
  · next hc =>
      split
      · left; rfl
      · right
        refine ⟨by omega, by omega, rfl⟩

/-- `markStepCompleted` only touches `completedSteps`. -/
lemma markStepCompleted_fields (s : TourState) (stepId : String) :
    (TourEngine.markStepCompleted s stepId).1.currentStepIndex = s.currentStepIndex ∧
    (TourEngine.markStepCompleted s stepId).1.totalSteps = s.totalSteps ∧
    (TourEngine.markStepCompleted s stepId).1.isRunning = s.isRunning ∧
    (TourEngine.markStepCompleted s stepId).1.currentStep = s.currentStep ∧
    (TourEngine.markStepCompleted s stepId).1.isCompleted = s.isCompleted ∧
    (TourEngine.markStepCompleted s stepId).1.isSkipped = s.isSkipped ∧
    stepChangeIndices (TourEngine.markStepCompleted s stepId).2 = [] := by
  unfold TourEngine.markStepCompleted
  split <;> exact ⟨rfl, rfl, rfl, rfl, rfl, rfl, rfl⟩

/-- `markStepSkipped` only touches `skippedSteps`. -/
lemma markStepSkipped_fields (s : TourState) (stepId : String) :
    (TourEngine.markStepSkipped s stepId).1.currentStepIndex = s.currentStepIndex ∧
    (TourEngine.markStepSkipped s stepId).1.totalSteps = s.totalSteps ∧
    (TourEngine.markStepSkipped s stepId).1.isCompleted = s.isCompleted ∧
    (TourEngine.markStepSkipped s stepId).1.isSkipped = s.isSkipped := by
  unfold TourEngine.markStepSkipped
  split <;> exact ⟨rfl, rfl, rfl, rfl⟩

/-- `next` is a no-op when the engine is not running. -/
lemma next_not_running (e : Engine) (h : e.state.isRunning = false) :
    TourEngine.next e = { engine := e, events := [], thrown := none } := by
  unfold TourEngine.next
  rw [if_pos h]

/-- `previous` is a no-op when the engine is not running. -/
lemma previous_not_running (e : Engine) (h : e.state.isRunning = false) :
    TourEngine.previous e = { engine := e, events := [], thrown := none } := by
  unfold TourEngine.previous
  rw [if_pos (Or.inl h)]

/-- `skip` is a no-op when the engine is not running. -/
lemma skip_not_running (e : Engine) (h : e.state.isRunning = false) :
    TourEngine.skip e = { engine := e, events := [], thrown := none } := by
  unfold TourEngine.skip
  rw [if_pos h]

/-- `resetTourState` reinitializes with no readable snapshot: both terminal
markers are cleared and the index returns to 0. -/
lemma reset_fields (e : Engine) :
    (TourEngine.resetTourState e).engine.cfg = e.cfg ∧
    (TourEngine.resetTourState e).engine.state.currentStepIndex = 0 ∧
    (TourEngine.resetTourState e).engine.state.totalSteps = e.cfg.steps.length ∧
    (TourEngine.resetTourState e).engine.state.isCompleted = false ∧
    (TourEngine.resetTourState e).engine.state.isSkipped = false := by
  unfold TourEngine.resetTourState TourEngine.initializeState
  rcases hrem : e.cfg.remember with _ | _
  · simp [hrem]
  · simp [hrem, TourStorage.getState, TourStorage.clearState]

/-- `start` never changes the config, the step count, the index or the
terminal markers (it delegates to `goToStep` at the current index). -/
lemma start_fields (e : Engine) :
    (TourEngine.start e).engine.cfg = e.cfg ∧
    (TourEngine.start e).engine.state.totalSteps = e.state.totalSteps ∧
    (TourEngine.start e).engine.state.currentStepIndex = e.state.currentStepIndex ∧
    (TourEngine.start e).engine.state.isCompleted = e.state.isCompleted ∧
    (TourEngine.start e).engine.state.isSkipped = e.state.isSkipped := by
  have hf := goToStep_frame
    { e with state := { e.state with isRunning := true, isLoading := true, error := none } }
    e.state.currentStepIndex
  have hi := goToStep_idx
    { e with state := { e.state with isRunning := true, isLoading := true, error := none } }
    e.state.currentStepIndex
  have hidx :
      (TourEngine.goToStep
        { e with state := { e.state with isRunning := true, isLoading := true, error := none } }
        e.state.currentStepIndex).engine.state.currentStepIndex = e.state.currentStepIndex := by
    rcases hi with h | h
    · exact h
    · exact h.2.2
  unfold TourEngine.start
  dsimp only
  split
  · exact ⟨hf.1, hf.2.1, hidx, hf.2.2.2.1, hf.2.2.2.2⟩
  · exact ⟨hf.1, hf.2.1, hidx, hf.2.2.2.1, hf.2.2.2.2⟩

/-- `complete` only sets `isRunning := false, isCompleted := true` in the
state. -/
lemma complete_fields (e : Engine) :
    (TourEngine.complete e).engine.cfg = e.cfg ∧
    (TourEngine.complete e).engine.state.totalSteps = e.state.totalSteps ∧
    (TourEngine.complete e).engine.state.currentStepIndex = e.state.currentStepIndex ∧
    (TourEngine.complete e).engine.state.isCompleted = true ∧
    (TourEngine.complete e).engine.state.isSkipped = e.state.isSkipped := by
  exact ⟨rfl, rfl, rfl, rfl, rfl⟩

/-- `skip` never sets `isCompleted` and never moves the index. -/
lemma skip_fields (e : Engine) :
    (TourEngine.skip e).engine.cfg = e.cfg ∧
    (TourEngine.skip e).engine.state.totalSteps = e.state.totalSteps ∧
    (TourEngine.skip e).engine.state.currentStepIndex = e.state.currentStepIndex ∧
    (TourEngine.skip e).engine.state.isCompleted = e.state.isCompleted := by
  unfold TourEngine.skip
  dsimp only
  split
  · exact ⟨rfl, rfl, rfl, rfl⟩
  · split
    · next step heq =>
        have hm := markStepSkipped_fields e.state step.id
        exact ⟨rfl, hm.2.1, hm.1, hm.2.2.1⟩
    · exact ⟨rfl, rfl, rfl, rfl⟩

/-- `next` never changes the config, never sets `isSkipped`, and moves the
index only through a valid `goToStep`. -/
lemma next_fields (e : Engine) :
    (TourEngine.next e).engine.cfg = e.cfg ∧
    (TourEngine.next e).engine.state.totalSteps = e.state.totalSteps ∧
    (TourEngine.next e).engine.state.isSkipped = e.state.isSkipped ∧
    ((TourEngine.next e).engine.state.currentStepIndex = e.state.currentStepIndex ∨
     (0 ≤ e.state.currentStepIndex + 1 ∧
      e.state.currentStepIndex + 1 < (e.state.totalSteps : Int) ∧
      (TourEngine.next e).engine.state.currentStepIndex = e.state.currentStepIndex + 1)) := by
  unfold TourEngine.next
  dsimp only
  split
  · exact ⟨rfl, rfl, rfl, Or.inl rfl⟩
  · split
    · exact ⟨rfl, rfl, rfl, Or.inl rfl⟩
    · next step heq =>
        have hm := markStepCompleted_fields e.state step.id
        split
        · exact ⟨rfl, hm.2.1, hm.2.2.2.2.2.1, Or.inl hm.1⟩
        · have hf := goToStep_frame { e with state := (TourEngine.markStepCompleted e.state step.id).1 }
            ((TourEngine.markStepCompleted e.state step.id).1.currentStepIndex + 1)
          have hi := goToStep_idx { e with state := (TourEngine.markStepCompleted e.state step.id).1 }
            ((TourEngine.markStepCompleted e.state step.id).1.currentStepIndex + 1)
          split
          · refine ⟨hf.1, hf.2.1.trans hm.2.1, hf.2.2.2.2.trans hm.2.2.2.2.2.1, ?_⟩
            rcases hi with h | h
            · exact Or.inl (h.trans hm.1)
            · refine Or.inr ⟨?_, ?_, ?_⟩
              · rw [← hm.1]; exact h.1
              · rw [← hm.1, ← hm.2.1]; exact h.2.1
              · rw [← hm.1]; exact h.2.2
          · refine ⟨hf.1, hf.2.1.trans hm.2.1, hf.2.2.2.2.trans hm.2.2.2.2.2.1, ?_⟩
            rcases hi with h | h
            · exact Or.inl (h.trans hm.1)
            · refine Or.inr ⟨?_, ?_, ?_⟩
              · rw [← hm.1]; exact h.1
              · rw [← hm.1, ← hm.2.1]; exact h.2.1
              · rw [← hm.1]; exact h.2.2

/-- `previous` never changes the config or flags, and moves the index only
through a valid `goToStep`. -/
lemma previous_fields (e : Engine) :
    (TourEngine.previous e).engine.cfg = e.cfg ∧
    (TourEngine.previous e).engine.state.totalSteps = e.state.totalSteps ∧
    (TourEngine.previous e).engine.state.isCompleted = e.state.isCompleted ∧
    (TourEngine.previous e).engine.state.isSkipped = e.state.isSkipped ∧
    ((TourEngine.previous e).engine.state.currentStepIndex = e.state.currentStepIndex ∨
     (0 ≤ e.state.currentStepIndex - 1 ∧
      e.state.currentStepIndex - 1 < (e.state.totalSteps : Int) ∧
      (TourEngine.previous e).engine.state.currentStepIndex = e.state.currentStepIndex - 1)) := by
  unfold TourEngine.previous
  dsimp only
  split
  · exact ⟨rfl, rfl, rfl, rfl, Or.inl rfl⟩
  · have hf := goToStep_frame e (e.state.currentStepIndex - 1)
    have hi := goToStep_idx e (e.state.currentStepIndex - 1)
    split
    · exact ⟨hf.1, hf.2.1, hf.2.2.2.1, hf.2.2.2.2, hi⟩
    · exact ⟨hf.1, hf.2.1, hf.2.2.2.1, hf.2.2.2.2, hi⟩

/-- One public operation preserves the index invariant (an out-of-range
`goToStep` changes nothing; an in-range one lands in range; `reset` returns to
index 0). -/
lemma applyOp_preserves_IndexInvariant (e : Engine) (op : TourEngine.Op)
    (h : IndexInvariant e) : IndexInvariant (TourEngine.applyOp e op).engine := by
  obtain ⟨h0, h1, hlen, hpos⟩ := h
  cases op with
  | start =>
      simp only [TourEngine.applyOp]
      have hs := start_fields e
      refine ⟨?_, ?_, ?_, ?_⟩
      · rw [hs.2.2.1]; exact h0
      · rw [hs.2.2.1, hs.2.1]; exact h1
      · rw [hs.2.1, hs.1]; exact hlen
      · rw [hs.1]; exact hpos
  | next =>
      simp only [TourEngine.applyOp]
      have hn := next_fields e
      rcases hn.2.2.2 with hidx | hidx
      · refine ⟨?_, ?_, ?_, ?_⟩
        · rw [hidx]; exact h0
        · rw [hidx, hn.2.1]; exact h1
        · rw [hn.2.1, hn.1]; exact hlen
        · rw [hn.1]; exact hpos
      · refine ⟨?_, ?_, ?_, ?_⟩
        · rw [hidx.2.2]; omega
        · rw [hidx.2.2, hn.2.1]; exact hidx.2.1
        · rw [hn.2.1, hn.1]; exact hlen
        · rw [hn.1]; exact hpos
  | previous =>
      simp only [TourEngine.applyOp]
      have hp := previous_fields e
      rcases hp.2.2.2.2 with hidx | hidx
      · refine ⟨?_, ?_, ?_, ?_⟩
        · rw [hidx]; exact h0
        · rw [hidx, hp.2.1]; exact h1
        · rw [hp.2.1, hp.1]; exact hlen
        · rw [hp.1]; exact hpos
      · refine ⟨?_, ?_, ?_, ?_⟩
        · rw [hidx.2.2]; exact hidx.1
        · rw [hidx.2.2, hp.2.1]; exact hidx.2.1
        · rw [hp.2.1, hp.1]; exact hlen
        · rw [hp.1]; exact hpos
  | goTo i =>
      simp only [TourEngine.applyOp]
      have hf := goToStep_frame e i
      rcases goToStep_idx e i with hidx | hidx
      · refine ⟨?_, ?_, ?_, ?_⟩
        · rw [hidx]; exact h0
        · rw [hidx, hf.2.1]; exact h1
        · rw [hf.2.1, hf.1]; exact hlen
        · rw [hf.1]; exact hpos
      · refine ⟨?_, ?_, ?_, ?_⟩
        · rw [hidx.2.2]; exact hidx.1
        · rw [hidx.2.2, hf.2.1]; exact hidx.2.1
        · rw [hf.2.1, hf.1]; exact hlen
        · rw [hf.1]; exact hpos
  | skip =>
      simp only [TourEngine.applyOp]
      have hk := skip_fields e
      refine ⟨?_, ?_, ?_, ?_⟩
      · rw [hk.2.2.1]; exact h0
      · rw [hk.2.2.1, hk.2.1]; exact h1
      · rw [hk.2.1, hk.1]; exact hlen
      · rw [hk.1]; exact hpos
  | complete =>
      simp only [TourEngine.applyOp]
      have hk := complete_fields e
      refine ⟨?_, ?_, ?_, ?_⟩
      · rw [hk.2.2.1]; exact h0
      · rw [hk.2.2.1, hk.2.1]; exact h1
      · rw [hk.2.1, hk.1]; exact hlen
      · rw [hk.1]; exact hpos
  | stop =>
      exact ⟨h0, h1, hlen, hpos⟩
  | reset =>
      simp only [TourEngine.applyOp]
      have hr := reset_fields e
      refine ⟨?_, ?_, ?_, ?_⟩
      · rw [hr.2.1]
      · rw [hr.2.1, hr.2.2.1]; omega
      · rw [hr.2.2.1, hr.1]
      · rw [hr.1]; exact hpos

/-- The index invariant is preserved by any sequence of public operations. -/
lemma runOps_preserves_IndexInvariant (ops : List TourEngine.Op) :
    ∀ e : Engine, IndexInvariant e → IndexInvariant (TourEngine.runOps e ops) := by
  induction ops with
  | nil => intro e h; exact h
  | cons op ops ih =>
      intro e h
      exact ih _ (applyOp_preserves_IndexInvariant e op h)

/-! ## Claim theorems -/

/-- C1 (counterexample): the claimed mutual exclusion of `isCompleted` and
`isSkipped` fails on the code: on a fresh 1-step tour the public call sequence
`start(); skip(); complete()` leaves BOTH markers true, because `complete()`
has no running-state guard and `skip()` does not prevent a later completion. -/
theorem skip_then_complete_sets_both_markers :
    (TourEngine.runOps (TourEngine.mkEngine wCfg1 emptyStore)
        [TourEngine.Op.start, TourEngine.Op.skip, TourEngine.Op.complete]).state.isCompleted
      = true ∧
    (TourEngine.runOps (TourEngine.mkEngine wCfg1 emptyStore)
        [TourEngine.Op.start, TourEngine.Op.skip, TourEngine.Op.complete]).state.isSkipped
      = true := by
  exact ⟨rfl, rfl⟩

/-- C1 (amended): no single public operation establishes both terminal markers
at once: from any state in which neither `isCompleted` nor `isSkipped` is set,
after any one public operation they are not both set. (Across several
operations the exclusion can break, as the counterexample shows.) -/
theorem singleOp_preserves_terminal_exclusion (e : Engine) (op : TourEngine.Op)
    (hc : e.state.isCompleted = false) (hs : e.state.isSkipped = false) :
    ¬((TourEngine.applyOp e op).engine.state.isCompleted = true ∧
      (TourEngine.applyOp e op).engine.state.isSkipped = true) := by
  intro hboth
  cases op with
  | start =>
      simp only [TourEngine.applyOp] at hboth
      have h1 : e.state.isCompleted = true := ((start_fields e).2.2.2.1).symm.trans hboth.1
      rw [hc] at h1
      exact Bool.false_ne_true h1
  | next =>
      simp only [TourEngine.applyOp] at hboth
      have h1 : e.state.isSkipped = true := ((next_fields e).2.2.1).symm.trans hboth.2
      rw [hs] at h1
      exact Bool.false_ne_true h1
  | previous =>
      simp only [TourEngine.applyOp] at hboth
      have h1 : e.state.isCompleted = true := ((previous_fields e).2.2.1).symm.trans hboth.1
      rw [hc] at h1
      exact Bool.false_ne_true h1
  | goTo i =>
      simp only [TourEngine.applyOp] at hboth
      have h1 : e.state.isCompleted = true := ((goToStep_frame e i).2.2.2.1).symm.trans hboth.1
      rw [hc] at h1
      exact Bool.false_ne_true h1
  | skip =>
      simp only [TourEngine.applyOp] at hboth
      have h1 : e.state.isCompleted = true := ((skip_fields e).2.2.2).symm.trans hboth.1
      rw [hc] at h1
      exact Bool.false_ne_true h1
  | complete =>
      simp only [TourEngine.applyOp] at hboth
      have h1 : e.state.isSkipped = true := ((complete_fields e).2.2.2.2).symm.trans hboth.2
      rw [hs] at h1
      exact Bool.false_ne_true h1
  | stop =>
      have h1 : e.state.isCompleted = true := hboth.1
      rw [hc] at h1
      exact Bool.false_ne_true h1
  | reset =>
      simp only [TourEngine.applyOp] at hboth
      have h1 : false = true := ((reset_fields e).2.2.2.1).symm.trans hboth.1
      exact Bool.false_ne_true h1

/-- C1 witness: the amended single-operation exclusion evaluated on a fresh
3-step engine and `start`. -/
theorem singleOp_preserves_terminal_exclusion_witness :
    (TourEngine.mkEngine wCfg3 emptyStore).state.isCompleted = false ∧
    (TourEngine.mkEngine wCfg3 emptyStore).state.isSkipped = false ∧
    ¬((TourEngine.applyOp (TourEngine.mkEngine wCfg3 emptyStore)
        TourEngine.Op.start).engine.state.isCompleted = true ∧
      (TourEngine.applyOp (TourEngine.mkEngine wCfg3 emptyStore)
        TourEngine.Op.start).engine.state.isSkipped = true) :=
  ⟨rfl, rfl,
   singleOp_preserves_terminal_exclusion (TourEngine.mkEngine wCfg3 emptyStore)
     TourEngine.Op.start rfl rfl⟩

/-- C2 (counterexample): an engine seeded from a persisted snapshot can start
out of bounds. A 6-step engine persists index 5 under the key `"shared"`; a
1-step engine constructed over the same storage seeds
`currentStepIndex = 5 > totalSteps - 1 = 0` (the code does no clamping). -/
theorem persisted_snapshot_breaks_index_bounds :
    (TourEngine.mkEngine wCfg1R
        (TourEngine.goToStep (TourEngine.mkEngine wCfg6 emptyStore) 5).engine.store).state.currentStepIndex = 5 ∧
    (TourEngine.mkEngine wCfg1R
        (TourEngine.goToStep (TourEngine.mkEngine wCfg6 emptyStore) 5).engine.store).state.totalSteps = 1 ∧
    ¬((TourEngine.mkEngine wCfg1R
        (TourEngine.goToStep (TourEngine.mkEngine wCfg6 emptyStore) 5).engine.store).state.currentStepIndex ≤
      ((TourEngine.mkEngine wCfg1R
        (TourEngine.goToStep (TourEngine.mkEngine wCfg6 emptyStore) 5).engine.store).state.totalSteps : Int) - 1) := by
  refine ⟨rfl, rfl, by decide⟩

/-- C2 (amended): provided the tour has at least one step and the engine's
initial index is itself within `[0, totalSteps-1]` (as holds for a fresh
engine, or one seeded from a snapshot written by an engine with the same tour
definition), every sequence of public operations keeps
`0 ≤ currentStepIndex ≤ totalSteps - 1`. -/
theorem currentStepIndex_stays_in_bounds (e : Engine) (ops : List TourEngine.Op)
    (hpos : 1 ≤ e.cfg.steps.length)
    (hlen : e.state.totalSteps = e.cfg.steps.length)
    (h0 : 0 ≤ e.state.currentStepIndex)
    (h1 : e.state.currentStepIndex < (e.state.totalSteps : Int)) :
    0 ≤ (TourEngine.runOps e ops).state.currentStepIndex ∧
    (TourEngine.runOps e ops).state.currentStepIndex ≤
      ((TourEngine.runOps e ops).state.totalSteps : Int) - 1 := by
  obtain ⟨a, b, -, -⟩ := runOps_preserves_IndexInvariant ops e ⟨h0, h1, hlen, hpos⟩
  exact ⟨a, by omega⟩

/-- C2 witness: the amended bounds evaluated on a fresh 3-step engine over the
sequence start, next, goToStep 2, previous. -/
theorem currentStepIndex_stays_in_bounds_witness :
    0 ≤ (TourEngine.runOps (TourEngine.mkEngine wCfg3 emptyStore)
          [TourEngine.Op.start, TourEngine.Op.next, TourEngine.Op.goTo 2,
           TourEngine.Op.previous]).state.currentStepIndex ∧
    (TourEngine.runOps (TourEngine.mkEngine wCfg3 emptyStore)
          [TourEngine.Op.start, TourEngine.Op.next, TourEngine.Op.goTo 2,
           TourEngine.Op.previous]).state.currentStepIndex ≤
      ((TourEngine.runOps (TourEngine.mkEngine wCfg3 emptyStore)
          [TourEngine.Op.start, TourEngine.Op.next, TourEngine.Op.goTo 2,
           TourEngine.Op.previous]).state.totalSteps : Int) - 1 :=
  currentStepIndex_stays_in_bounds (TourEngine.mkEngine wCfg3 emptyStore)
    [TourEngine.Op.start, TourEngine.Op.next, TourEngine.Op.goTo 2, TourEngine.Op.previous]
    (by decide) rfl (by decide) (by decide)

/-- C4: `goToStep(i)` with `i < 0` or `i ≥ totalSteps` rejects with the
out-of-range error and leaves the whole engine (state AND storage) unchanged,
emitting nothing. -/
theorem goToStep_out_of_range (e : Engine) (i : Int)
    (h : i < 0 ∨ (e.state.totalSteps : Int) ≤ i) :
    TourEngine.goToStep e i =
      { engine := e, events := [],
        thrown := some (TourEngine.invalidIndexMsg i e.state.totalSteps) } :=
  goToStep_out_of_range_eq e i h

/-- C4 witness: both `goToStep(-1)` and `goToStep(totalSteps)` on a fresh
3-step engine fail this way. -/
theorem goToStep_out_of_range_witness :
    TourEngine.goToStep (TourEngine.mkEngine wCfg3 emptyStore) (-1) =
      { engine := TourEngine.mkEngine wCfg3 emptyStore, events := [],
        thrown := some (TourEngine.invalidIndexMsg (-1)
          (TourEngine.mkEngine wCfg3 emptyStore).state.totalSteps) } ∧
    TourEngine.goToStep (TourEngine.mkEngine wCfg3 emptyStore) 3 =
      { engine := TourEngine.mkEngine wCfg3 emptyStore, events := [],
        thrown := some (TourEngine.invalidIndexMsg 3
          (TourEngine.mkEngine wCfg3 emptyStore).state.totalSteps) } :=
  ⟨goToStep_out_of_range (TourEngine.mkEngine wCfg3 emptyStore) (-1) (by decide),
   goToStep_out_of_range (TourEngine.mkEngine wCfg3 emptyStore) 3 (by decide)⟩

/-- C5: Scenario A. On the 3-step tour (no target elements), `start(); next();
next(); next()` emits exactly `tour-start`, `step-change(0)`, `step-change(1)`,
`step-change(2)`, `tour-complete`, in this order, not counting `state-change`
emissions. -/
theorem scenarioA_event_order :
    namedEvents (TourEngine.runTrace (TourEngine.mkEngine wCfg3 emptyStore)
        [TourEngine.Op.start, TourEngine.Op.next, TourEngine.Op.next, TourEngine.Op.next]).2 =
      [TourEvent.tourStart "tour", TourEvent.stepChange "s0" 0, TourEvent.stepChange "s1" 1,
       TourEvent.stepChange "s2" 2, TourEvent.tourComplete "tour"] := by
  rfl

/-- The `for ... of` scan of `findIntegration` is `List.find?` over the
registry in registration order. -/
lemma findIntegration_eq_find? (regs : List Integration) (a : TourAction) :
    TourActions.findIntegration regs a = regs.find? (fun i => i.canHandle a) := by
  induction regs with
  | nil => rfl
  | cons i rest ih =>
      unfold TourActions.findIntegration
      cases h : i.canHandle a
      · rw [List.find?_cons_of_neg _ (by simp [h]), ih]
        simp [h]
      · rw [List.find?_cons_of_pos _ (by simp [h])]
        simp [h]

/-- C7: `execute` invokes the first registered integration (in registration
order) whose `canHandle` is true; if its execute rejects, the failure is not
propagated and the default handler for the action's type runs instead; with no
claiming integration the default handler runs directly. -/
theorem execute_dispatch_spec (regs : List Integration) (a : TourAction) :
    TourActions.findIntegration regs a = regs.find? (fun i => i.canHandle a) ∧
    (∀ i, regs.find? (fun j => j.canHandle a) = some i →
      TourActions.execute regs a =
        (if i.execFails a then [ExecStep.integrationRun i.name, ExecStep.defaultRun a.type]
         else [ExecStep.integrationRun i.name])) ∧
    (regs.find? (fun j => j.canHandle a) = none →
      TourActions.execute regs a = [ExecStep.defaultRun a.type]) := by
  refine ⟨findIntegration_eq_find? regs a, ?_, ?_⟩
  · intro i hfind
    unfold TourActions.execute
    rw [findIntegration_eq_find? regs a, hfind]
  · intro hfind
    unfold TourActions.execute
    rw [findIntegration_eq_find? regs a, hfind]

/-- C7 witness: a registry where the first integration declines and the second
claims the `custom-foo` action but rejects; the trace shows the integration
invocation followed by the default handler for type `custom-foo`. -/
theorem execute_dispatch_spec_witness :
    TourActions.execute [wIntegrationA, wIntegrationB] wAction =
      [ExecStep.integrationRun "B", ExecStep.defaultRun "custom-foo"] :=
  ((execute_dispatch_spec [wIntegrationA, wIntegrationB] wAction).2.1 wIntegrationB rfl).trans rfl

/-- `TourStorage.isCompleted` agrees with the spec-worded "snapshot shows
isCompleted = true". -/
lemma storage_isCompleted_iff (store : LocalStorage) (key : String) :
    TourStorage.isCompleted store key = true ↔
      snapshotShowsCompleted (TourStorage.getState store key) := by
  unfold TourStorage.isCompleted snapshotShowsCompleted
  rcases TourStorage.getState store key with _ | s
  · simp
  · rcases h : s.isCompleted with _ | b
    · simp [h]
    · cases b <;> simp [h]

/-- `TourStorage.isSkipped` agrees with the spec-worded "snapshot shows
isSkipped = true". -/
lemma storage_isSkipped_iff (store : LocalStorage) (key : String) :
    TourStorage.isSkipped store key = true ↔
      snapshotShowsSkipped (TourStorage.getState store key) := by
  unfold TourStorage.isSkipped snapshotShowsSkipped
  rcases TourStorage.getState store key with _ | s
  · simp
  · rcases h : s.isSkipped with _ | b
    · simp [h]
    · cases b <;> simp [h]

/-- C9: `shouldShowTour()` is true unconditionally when persistence is
disabled, and with persistence enabled it is true exactly when the persisted
snapshot shows neither `isCompleted = true` nor `isSkipped = true`. -/
theorem shouldShowTour_spec (e : Engine) :
    TourEngine.shouldShowTour e = true ↔
      (e.cfg.remember = false ∨
       (¬ snapshotShowsCompleted (TourStorage.getState e.store e.cfg.storageKey) ∧
        ¬ snapshotShowsSkipped (TourStorage.getState e.store e.cfg.storageKey))) := by
  have hc := storage_isCompleted_iff e.store e.cfg.storageKey
  have hs := storage_isSkipped_iff e.store e.cfg.storageKey
  unfold TourEngine.shouldShowTour
  rcases hrem : e.cfg.remember with _ | _
  · simp
  · rw [if_neg (by simp [hrem])]
    rw [Bool.and_eq_true, Bool.not_eq_true', Bool.not_eq_true']
    constructor
    · intro h
      refine Or.inr ⟨?_, ?_⟩
      · intro hp
        have := hc.mpr hp
        rw [h.1] at this
        exact Bool.false_ne_true this
      · intro hp
        have := hs.mpr hp
        rw [h.2] at this
        exact Bool.false_ne_true this
    · intro h
      rcases h with h | ⟨hnc, hns⟩
      · exact absurd h (by simp)
      · constructor
        · exact Bool.eq_false_iff.mpr (fun hx => hnc (hc.mp hx))
        · exact Bool.eq_false_iff.mpr (fun hx => hns (hs.mp hx))

/-- C8: with persistence enabled, a successful `goToStep(2)` persists a
snapshot recording index 2, and a new engine over the same tour definition and
storage reads it back: its initial `currentStepIndex` is 2. -/
theorem goToStep2_roundtrip (e : Engine)
    (hrem : e.cfg.remember = true)
    (hlen : e.state.totalSteps = e.cfg.steps.length)
    (h3 : 2 < (e.state.totalSteps : Int)) :
    (TourEngine.goToStep e 2).thrown = none ∧
    ((TourEngine.goToStep e 2).engine.store e.cfg.storageKey).bind (fun s => s.currentStepIndex)
      = some 2 ∧
    (TourEngine.mkEngine e.cfg (TourEngine.goToStep e 2).engine.store).state.currentStepIndex
      = 2 := by
  obtain ⟨step, hstep, heq⟩ := goToStep_valid_eq e 2 (by omega) h3 hlen
  rw [heq]
  refine ⟨rfl, ?_, ?_⟩
  · rw [if_pos hrem]
    simp [TourStorage.saveState]
  · simp [TourEngine.mkEngine, TourEngine.initializeState, hrem, TourStorage.getState,
      TourStorage.saveState]

/-- C8 witness: the round-trip evaluated on a fresh remembering 3-step
engine. -/
theorem goToStep2_roundtrip_witness :
    (TourEngine.goToStep (TourEngine.mkEngine wCfgR emptyStore) 2).thrown = none ∧
    ((TourEngine.goToStep (TourEngine.mkEngine wCfgR emptyStore) 2).engine.store "k").bind
        (fun s => s.currentStepIndex) = some 2 ∧
    (TourEngine.mkEngine wCfgR
        (TourEngine.goToStep (TourEngine.mkEngine wCfgR emptyStore) 2).engine.store).state.currentStepIndex
      = 2 :=
  goToStep2_roundtrip (TourEngine.mkEngine wCfgR emptyStore) rfl rfl (by decide)

/-- C10: with a valid index, `goToStep(i)` succeeds even when the engine is
not running — it updates `currentStepIndex` and `currentStep`, emits
`step-change`, and overwrites the snapshot when persistence is enabled —
whereas `next()`, `previous()` and `skip()` are no-ops when `isRunning` is
false. -/
theorem goToStep_succeeds_when_not_running (e : Engine) (i : Int)
    (hrun : e.state.isRunning = false)
    (h0 : 0 ≤ i) (hi : i < (e.state.totalSteps : Int))
    (hlen : e.state.totalSteps = e.cfg.steps.length) :
    TourEngine.next e = { engine := e, events := [], thrown := none } ∧
    TourEngine.previous e = { engine := e, events := [], thrown := none } ∧
    TourEngine.skip e = { engine := e, events := [], thrown := none } ∧
    ∃ step, e.cfg.steps[i.toNat]? = some step ∧
      (TourEngine.goToStep e i).thrown = none ∧
      (TourEngine.goToStep e i).engine.state.currentStepIndex = i ∧
      (TourEngine.goToStep e i).engine.state.currentStep = some step ∧
      namedEvents (TourEngine.goToStep e i).events = [TourEvent.stepChange step.id i] ∧
      (TourEngine.goToStep e i).engine.store =
        (if e.cfg.remember = true then
          TourStorage.saveState e.store e.cfg.storageKey
            { e.state with currentStepIndex := i, currentStep := some step, isLoading := false }
         else e.store) := by
  obtain ⟨step, hstep, heq⟩ := goToStep_valid_eq e i h0 hi hlen
  refine ⟨next_not_running e hrun, previous_not_running e hrun, skip_not_running e hrun,
    step, hstep, ?_, ?_, ?_, ?_, ?_⟩ <;> (rw [heq]; try rfl)

/-- C10 witness: the contrast evaluated on a fresh (never started) 3-step
engine at index 1. -/
theorem goToStep_succeeds_when_not_running_witness :
    TourEngine.next (TourEngine.mkEngine wCfg3 emptyStore) =
      { engine := TourEngine.mkEngine wCfg3 emptyStore, events := [], thrown := none } ∧
    TourEngine.previous (TourEngine.mkEngine wCfg3 emptyStore) =
      { engine := TourEngine.mkEngine wCfg3 emptyStore, events := [], thrown := none } ∧
    TourEngine.skip (TourEngine.mkEngine wCfg3 emptyStore) =
      { engine := TourEngine.mkEngine wCfg3 emptyStore, events := [], thrown := none } ∧
    ∃ step, wCfg3.steps[(1 : Int).toNat]? = some step ∧
      (TourEngine.goToStep (TourEngine.mkEngine wCfg3 emptyStore) 1).thrown = none ∧
      (TourEngine.goToStep (TourEngine.mkEngine wCfg3 emptyStore) 1).engine.state.currentStepIndex = 1 ∧
      (TourEngine.goToStep (TourEngine.mkEngine wCfg3 emptyStore) 1).engine.state.currentStep = some step ∧
      namedEvents (TourEngine.goToStep (TourEngine.mkEngine wCfg3 emptyStore) 1).events =
        [TourEvent.stepChange step.id 1] ∧
      (TourEngine.goToStep (TourEngine.mkEngine wCfg3 emptyStore) 1).engine.store =
        (if wCfg3.remember = true then
          TourStorage.saveState emptyStore wCfg3.storageKey
            { (TourEngine.mkEngine wCfg3 emptyStore).state with
                currentStepIndex := 1, currentStep := some step, isLoading := false }
         else emptyStore) :=
  goToStep_succeeds_when_not_running (TourEngine.mkEngine wCfg3 emptyStore) 1 rfl
    (by decide) (by decide) rfl

/-- Dropping an element the predicate rejects from a list does not change
`find?`: the fallback loop's `continue` on the (already non-fitting) preferred
placement is immaterial. -/
lemma find?_filter_ne (l : List Placement) (p : Placement → Bool) (a : Placement)
    (hpa : p a = false) :
    (l.filter (fun pl => decide (pl ≠ a))).find? p = l.find? p := by
  induction l with
  | nil => rfl
  | cons x t ih =>
      by_cases hx : x = a
      · subst hx
        rw [List.filter_cons, if_neg (by simp), ih, List.find?_cons_of_neg _ (by simp [hpa])]
      · rw [List.filter_cons, if_pos (by simp [hx])]
        cases hpx : p x
        · rw [List.find?_cons_of_neg _ (by simp [hpx]),
              List.find?_cons_of_neg _ (by simp [hpx]), ih]
        · rw [List.find?_cons_of_pos _ (by simp [hpx]),
              List.find?_cons_of_pos _ (by simp [hpx])]

/-- C6: the position calculation is total and returns the preferred
placement's candidate when it fits the viewport minus the fixed margin,
otherwise the first fitting candidate in the fixed order bottom, top, right,
left, center, otherwise the center candidate — i.e. it coincides with the
spec-worded `specPopoverPosition` on every input. -/
theorem calculatePopoverPosition_follows_spec (targetPos : ElementPosition) (popoverRect : Size)
    (pref : Placement) (viewport : Viewport) :
    calculatePopoverPosition targetPos popoverRect pref viewport =
      specPopoverPosition targetPos popoverRect pref viewport := by
  simp only [calculatePopoverPosition, specPopoverPosition]
  by_cases h : isPositionInViewport (positionsFor targetPos popoverRect viewport pref)
      popoverRect viewport = true
  · rw [if_pos h, if_pos h]
  · have hb : isPositionInViewport (positionsFor targetPos popoverRect viewport pref)
        popoverRect viewport = false := Bool.eq_false_iff.mpr h
    rw [if_neg h, if_neg h,
        find?_filter_ne fallbackOrder
          (fun pl => isPositionInViewport (positionsFor targetPos popoverRect viewport pl)
            popoverRect viewport) pref hb]

/-- `stepChangeIndices` distributes over trace concatenation. -/
lemma stepChangeIndices_append (l1 l2 : List TourEvent) :
    stepChangeIndices (l1 ++ l2) = stepChangeIndices l1 ++ stepChangeIndices l2 :=
  List.filterMap_append l1 l2 _

/-- A fresh snapshot read yields the default initial state (whatever the
`remember` flag). -/
lemma initializeState_fresh (cfg : TourConfig) (store : LocalStorage)
    (hfresh : TourStorage.getState store cfg.storageKey = none) :
    TourEngine.initializeState cfg store =
      { isRunning := false, currentStepIndex := 0, currentStep := none,
        totalSteps := cfg.steps.length, isLoading := false, error := none,
        completedSteps := [], skippedSteps := [], isCompleted := false, isSkipped := false,
        completedAt := none, skippedAt := none } := by
  unfold TourEngine.initializeState
  cases h : cfg.remember <;> simp [h, hfresh]

/-- `next` on a running engine whose index sits at the last step delegates to
`complete`: no `step-change`, terminal flags set. -/
lemma next_completes (e : Engine) (step : TourStep)
    (hrun : e.state.isRunning = true)
    (hcs : e.state.currentStep = some step)
    (hge : (e.state.totalSteps : Int) - 1 ≤ e.state.currentStepIndex) :
    (TourEngine.next e).thrown = none ∧
    stepChangeIndices (TourEngine.next e).events = [] ∧
    (TourEngine.next e).engine.state.isCompleted = true ∧
    (TourEngine.next e).engine.state.isRunning = false := by
  have hm := markStepCompleted_fields e.state step.id
  unfold TourEngine.next
  dsimp only
  rw [if_neg (by simp [hrun])]
  simp only [hcs]
  rw [if_pos (by rw [hm.1, hm.2.1]; exact hge)]
  refine ⟨rfl, ?_, rfl, rfl⟩
  rw [stepChangeIndices_append, hm.2.2.2.2.2.2]
  rfl

/-- `next` on a running engine strictly before the last step advances the
index by one, entering the next step and emitting its `step-change`. -/
lemma next_advances (e : Engine) (step : TourStep)
    (hrun : e.state.isRunning = true)
    (hcs : e.state.currentStep = some step)
    (hlen : e.state.totalSteps = e.cfg.steps.length)
    (h0 : 0 ≤ e.state.currentStepIndex)
    (hlt : e.state.currentStepIndex + 1 < (e.state.totalSteps : Int)) :
    ∃ step2, e.cfg.steps[(e.state.currentStepIndex + 1).toNat]? = some step2 ∧
      (TourEngine.next e).thrown = none ∧
      stepChangeIndices (TourEngine.next e).events = [e.state.currentStepIndex + 1] ∧
      (TourEngine.next e).engine.cfg = e.cfg ∧
      (TourEngine.next e).engine.state.isRunning = true ∧
      (TourEngine.next e).engine.state.currentStep = some step2 ∧
      (TourEngine.next e).engine.state.currentStepIndex = e.state.currentStepIndex + 1 ∧
      (TourEngine.next e).engine.state.totalSteps = e.state.totalSteps ∧
      (TourEngine.next e).engine.state.isCompleted = e.state.isCompleted := by
  have hm := markStepCompleted_fields e.state step.id
  obtain ⟨step2, hstep2, heq⟩ := goToStep_valid_eq
    { e with state := (TourEngine.markStepCompleted e.state step.id).1 }
    ((TourEngine.markStepCompleted e.state step.id).1.currentStepIndex + 1)
    (by rw [hm.1]; omega)
    (by dsimp only; rw [hm.1, hm.2.1]; exact hlt)
    (by dsimp only; rw [hm.2.1]; exact hlen)
  rw [hm.1] at hstep2 heq
  refine ⟨step2, hstep2, ?_⟩
  unfold TourEngine.next
  dsimp only
  rw [if_neg (by simp [hrun])]
  simp only [hcs]
  rw [if_neg (by rw [hm.1, hm.2.1]; omega)]
  rw [hm.1]
  rw [heq]
  dsimp only
  refine ⟨rfl, ?_, rfl, ?_, rfl, rfl, hm.2.1, hm.2.2.2.2.1⟩
  · rw [stepChangeIndices_append, hm.2.2.2.2.2.2]
    rfl
  · exact hm.2.2.1.trans hrun

/-- Running `k+1` consecutive `next()` calls from a running engine at index
`j` with `j + (k+1) = totalSteps` emits `step-change` for indices
`j+1, …, totalSteps-1` in order and ends completed and stopped. -/
lemma replicate_next_run (k : Nat) :
    ∀ (e : Engine) (j : Nat),
      e.state.isRunning = true →
      e.state.currentStep.isSome = true →
      e.state.totalSteps = e.cfg.steps.length →
      e.state.currentStepIndex = (j : Int) →
      j + (k + 1) = e.cfg.steps.length →
      stepChangeIndices (TourEngine.runTrace e
          (List.replicate (k + 1) TourEngine.Op.next)).2 =
        (List.range' (j + 1) k).map (fun n : Nat => (n : Int)) ∧
      (TourEngine.runTrace e
          (List.replicate (k + 1) TourEngine.Op.next)).1.state.isCompleted = true ∧
      (TourEngine.runTrace e
          (List.replicate (k + 1) TourEngine.Op.next)).1.state.isRunning = false := by
  induction k with
  | zero =>
      intro e j hrun hcs hlen hidx htot
      obtain ⟨step, hstep⟩ : ∃ s, e.state.currentStep = some s := by
        rcases h : e.state.currentStep with _ | s
        · rw [h] at hcs; exact absurd hcs (by simp)
        · exact ⟨s, rfl⟩
      have hc := next_completes e step hrun hstep (by rw [hidx, hlen]; omega)
      refine ⟨?_, hc.2.2.1, hc.2.2.2⟩
      have hdec : stepChangeIndices (TourEngine.runTrace e
          (List.replicate 1 TourEngine.Op.next)).2 =
          stepChangeIndices ((TourEngine.next e).events ++ []) := rfl
      rw [hdec, List.append_nil, hc.2.1]
      rfl
  | succ k ih =>
      intro e j hrun hcs hlen hidx htot
      obtain ⟨step, hstep⟩ : ∃ s, e.state.currentStep = some s := by
        rcases h : e.state.currentStep with _ | s
        · rw [h] at hcs; exact absurd hcs (by simp)
        · exact ⟨s, rfl⟩
      obtain ⟨step2, hstep2, hthrown, hsci, hcfg, hrun2, hcs2, hidx2, hts2, hic2⟩ :=
        next_advances e step hrun hstep hlen (by rw [hidx]; omega)
          (by rw [hidx, hlen]; omega)
      have hih := ih (TourEngine.next e).engine (j + 1) hrun2
        (by rw [hcs2]; rfl)
        (by rw [hts2, hcfg]; exact hlen)
        (by rw [hidx2, hidx]; push_cast; ring)
        (by rw [hcfg]; omega)
      have hdec : stepChangeIndices (TourEngine.runTrace e
          (List.replicate (k + 1 + 1) TourEngine.Op.next)).2 =
          stepChangeIndices ((TourEngine.next e).events ++
            (TourEngine.runTrace (TourEngine.next e).engine
              (List.replicate (k + 1) TourEngine.Op.next)).2) := rfl
      refine ⟨?_, hih.2.1, hih.2.2⟩
      rw [hdec, stepChangeIndices_append, hsci, hih.1, hidx]
      rw [List.range'_succ, List.map_cons]
      show ((j : Int) + 1) :: _ = _
      push_cast
      rfl

/-- `start` on an engine with an in-range current index succeeds: it turns on
`isRunning`, enters the current step, and its only `step-change` is for the
current index. -/
lemma start_enters_first_step (e : Engine)
    (h0 : 0 ≤ e.state.currentStepIndex)
    (hlt : e.state.currentStepIndex < (e.state.totalSteps : Int))
    (hlen : e.state.totalSteps = e.cfg.steps.length) :
    ∃ step, e.cfg.steps[e.state.currentStepIndex.toNat]? = some step ∧
      (TourEngine.start e).thrown = none ∧
      stepChangeIndices (TourEngine.start e).events = [e.state.currentStepIndex] ∧
      (TourEngine.start e).engine.cfg = e.cfg ∧
      (TourEngine.start e).engine.state.isRunning = true ∧
      (TourEngine.start e).engine.state.currentStep = some step ∧
      (TourEngine.start e).engine.state.currentStepIndex = e.state.currentStepIndex ∧
      (TourEngine.start e).engine.state.totalSteps = e.state.totalSteps ∧
      (TourEngine.start e).engine.state.isCompleted = e.state.isCompleted := by
  obtain ⟨step, hstep, heq⟩ := goToStep_valid_eq
    { e with state := { e.state with isRunning := true, isLoading := true, error := none } }
    e.state.currentStepIndex
    h0 (by dsimp only; exact hlt) (by dsimp only; exact hlen)
  refine ⟨step, hstep, ?_⟩
  unfold TourEngine.start
  dsimp only
  rw [heq]
  dsimp only
  exact ⟨rfl, rfl, rfl, rfl, rfl, rfl, rfl, rfl⟩

/-- C3: on a fresh engine (no persisted snapshot) over an n-step tour with
n ≥ 1, `start()` followed by n `next()` calls steps through the indices
0, 1, …, n-1 in order (witnessed by the `step-change` emissions, each of which
follows the state update to that index) and ends with `isCompleted = true`
and `isRunning = false`. -/
theorem start_then_n_nexts_completes (cfg : TourConfig) (store : LocalStorage)
    (hfresh : TourStorage.getState store cfg.storageKey = none)
    (hn : 1 ≤ cfg.steps.length) :
    stepChangeIndices (TourEngine.runTrace (TourEngine.mkEngine cfg store)
        (TourEngine.Op.start :: List.replicate cfg.steps.length TourEngine.Op.next)).2 =
      (List.range cfg.steps.length).map (fun n : Nat => (n : Int)) ∧
    (TourEngine.runTrace (TourEngine.mkEngine cfg store)
        (TourEngine.Op.start :: List.replicate cfg.steps.length
          TourEngine.Op.next)).1.state.isCompleted = true ∧
    (TourEngine.runTrace (TourEngine.mkEngine cfg store)
        (TourEngine.Op.start :: List.replicate cfg.steps.length
          TourEngine.Op.next)).1.state.isRunning = false := by
  obtain ⟨k, hk⟩ : ∃ k, cfg.steps.length = k + 1 := ⟨cfg.steps.length - 1, by omega⟩
  have hinit := initializeState_fresh cfg store hfresh
  have hidx : (TourEngine.mkEngine cfg store).state.currentStepIndex = 0 := by
    show (TourEngine.initializeState cfg store).currentStepIndex = 0
    rw [hinit]
  have hts : (TourEngine.mkEngine cfg store).state.totalSteps = cfg.steps.length := rfl
  obtain ⟨step, hstep, hthrown, hsci, hcfg, hrun, hcs, hidx1, hts1, hic1⟩ :=
    start_enters_first_step (TourEngine.mkEngine cfg store)
      (by rw [hidx]) (by rw [hidx, hts]; omega) rfl
  have hih := replicate_next_run k
    (TourEngine.start (TourEngine.mkEngine cfg store)).engine 0
    hrun (by rw [hcs]; rfl)
    (by rw [hts1, hcfg]; exact hts)
    (by rw [hidx1, hidx]; rfl)
    (by rw [hcfg]; show 0 + (k + 1) = cfg.steps.length; omega)
  have hdec : stepChangeIndices (TourEngine.runTrace (TourEngine.mkEngine cfg store)
      (TourEngine.Op.start :: List.replicate (k + 1) TourEngine.Op.next)).2 =
      stepChangeIndices ((TourEngine.start (TourEngine.mkEngine cfg store)).events ++
        (TourEngine.runTrace (TourEngine.start (TourEngine.mkEngine cfg store)).engine
          (List.replicate (k + 1) TourEngine.Op.next)).2) := rfl
  rw [hk]
  refine ⟨?_, hih.2.1, hih.2.2⟩
  rw [hdec, stepChangeIndices_append, hsci, hih.1, hidx]
  rw [List.range_eq_range', List.range'_succ, List.map_cons]
  simp

/-- C3 witness: the traversal evaluated on the fresh 3-step tour. -/
theorem start_then_n_nexts_completes_witness :
    stepChangeIndices (TourEngine.runTrace (TourEngine.mkEngine wCfg3 emptyStore)
        (TourEngine.Op.start :: List.replicate wCfg3.steps.length TourEngine.Op.next)).2 =
      (List.range wCfg3.steps.length).map (fun n : Nat => (n : Int)) ∧
    (TourEngine.runTrace (TourEngine.mkEngine wCfg3 emptyStore)
        (TourEngine.Op.start :: List.replicate wCfg3.steps.length
          TourEngine.Op.next)).1.state.isCompleted = true ∧
    (TourEngine.runTrace (TourEngine.mkEngine wCfg3 emptyStore)
        (TourEngine.Op.start :: List.replicate wCfg3.steps.length
          TourEngine.Op.next)).1.state.isRunning = false :=
  start_then_n_nexts_completes wCfg3 emptyStore rfl (by decide)
